import Mathlib

/-!
Shallow embedding of `live_daily_attendance.py` (ZKT-Attendance-reader).

The poller keeps three sqlite tables (`meta`, `processed`, `present`), one
CSV ledger file per calendar day, and an in-memory roster loaded from
`users.csv`.  We model:

* timestamps in milliseconds, so that Python's `int(rec.timestamp)`
  truncation to whole seconds (the `epoch` dedup key) is visible as
  division by 1000;
* calendar days as `epoch / 86400` (the timezone offset of
  `datetime.fromtimestamp` is taken as zero; a constant shift is
  irrelevant to every property below);
* the `strftime('%Y-%m-%d %H:%M:%S')` check-in string by the epoch
  itself (the format is injective per second);
* console prints and database writes as an explicit trace of `Op`s, so
  that write ordering is observable.
-/

namespace ZKT

/-- A raw attendance record as yielded by `conn.get_attendance()` in
`poll_once`: a user id and a timestamp (modelled in milliseconds). -/
structure Rec where
  user_id : Nat
  timestamp : Nat
deriving DecidableEq, Repr

/-- Models `epoch = int(rec.timestamp)` (line 146): truncation of the
timestamp to whole seconds. -/
def epochOf (r : Rec) : Nat := r.timestamp / 1000

/-- Models `day_str_for_dt(datetime.fromtimestamp(epoch))`: the calendar
day containing the second `epoch`. -/
def day_str_for_dt (epoch : Nat) : Nat := epoch / 86400

/-- Models `device_epoch_to_local_str(epoch)`: the formatted local time
string, represented by the epoch it is derived from (the format is
injective at second resolution). -/
def device_epoch_to_local_str (epoch : Nat) : Nat := epoch

/-- The sqlite database `attendance_state.db`: tables `meta (k PRIMARY
KEY, v)` (the only key ever used is `current_csv_date`, whose value is a
day), `processed (device_epoch INTEGER PRIMARY KEY)` and `present (day,
user_id, first_checkin_local, PRIMARY KEY (day, user_id))`. -/
structure DB where
  meta : List (String × Nat)
  processed : List Nat
  present : List (Nat × Nat × Nat)
deriving DecidableEq, Repr

/-- Models `get_meta(k)`. -/
def get_meta (k : String) (db : DB) : Option Nat := db.meta.lookup k

/-- Models `set_meta(k, v)` (`INSERT OR REPLACE`). -/
def set_meta (k : String) (v : Nat) (db : DB) : DB :=
  { db with meta := (k, v) :: db.meta.filter (fun p => !(p.1 == k)) }

/-- Models `mark_epoch_processed(epoch)`: `INSERT INTO processed`, with
`sqlite3.IntegrityError` swallowed when the primary key already exists.
The Python function ends at `conn.close()` on both paths and so returns
`None` on both paths, modelled as the constant first component `none`. -/
def mark_epoch_processed (epoch : Nat) (db : DB) : Option Bool × DB :=
  if epoch ∈ db.processed then (none, db)
  else (none, { db with processed := epoch :: db.processed })

/-- Models `is_epoch_processed(epoch)`. -/
def is_epoch_processed (epoch : Nat) (db : DB) : Bool :=
  decide (epoch ∈ db.processed)

/-- Models `is_user_marked_today(user_id, daystr)`: the stored
`first_checkin_local` for `(daystr, user_id)`, if any. -/
def is_user_marked_today (user_id day : Nat) (db : DB) : Option Nat :=
  (db.present.find? (fun row => row.1 == day && row.2.1 == user_id)).map
    (fun row => row.2.2)

/-- Models `mark_user_present(user_id, daystr, first_checkin_local)`:
`INSERT OR REPLACE INTO present`. -/
def mark_user_present (user_id day first_checkin_local : Nat) (db : DB) : DB :=
  { db with present := (day, user_id, first_checkin_local) ::
      db.present.filter (fun row => !(row.1 == day && row.2.1 == user_id)) }

/-- One row of an `attendance_YYYY-MM-DD.csv` ledger file. -/
structure Row where
  id : Nat
  name : String
  status : String
  first_checkin_local : Option Nat
deriving DecidableEq, Repr

/-- Full mutable state: the sqlite database plus the ledger CSV files in
the output directory, keyed by day. -/
structure St where
  db : DB
  files : List (Nat × List Row)
deriving DecidableEq, Repr

/-- The ledger file for a day, when it exists. -/
def getFile (day : Nat) (st : St) : Option (List Row) := st.files.lookup day

/-- Overwrite (or create) the ledger file for a day. -/
def setFile (day : Nat) (rows : List Row) (st : St) : St :=
  { st with files := (day, rows) :: st.files.filter (fun p => !(p.1 == day)) }

/-- The roster loaded by `load_users()`: a map id → name. -/
abbrev Users := List (Nat × String)

/-- Models `users[uid]['name']`. -/
def userName (users : Users) (uid : Nat) : String := (users.lookup uid).getD ""

/-- Boolean comparison used to sort roster ids. -/
def natLE (a b : Nat) : Bool := decide (a ≤ b)

/-- The rows `make_daily_csv` writes: one `Absent` row per roster person,
in ascending id order (`for uid in sorted(users)`). -/
def absentRowsOf (users : Users) : List Row :=
  ((users.map Prod.fst).mergeSort natLE).map
    (fun uid => ⟨uid, userName users uid, "Absent", none⟩)

/-- Models `make_daily_csv(users, day)`: write the fresh all-Absent file,
then `set_meta('current_csv_date', day)`. -/
def make_daily_csv (users : Users) (day : Nat) (st : St) : St :=
  let st1 := setFile day (absentRowsOf users) st
  { st1 with db := set_meta "current_csv_date" day st1.db }

/-- One row-transformation step of `update_csv_mark_present`: a row whose
id matches and whose status is not yet `Present` becomes `Present` with
the given check-in time. -/
def update_csv_row (uid checkin : Nat) (row : Row) : Row × Bool :=
  if row.id == uid && !(row.status == "Present") then
    ({ row with status := "Present", first_checkin_local := some checkin }, true)
  else (row, false)

/-- Models the row loop of `update_csv_mark_present(filename, uid,
checkin_str)`: returns the transformed rows and the `updated` flag. -/
def update_csv_mark_present (rows : List Row) (uid checkin : Nat) : List Row × Bool :=
  match rows with
  | [] => ([], false)
  | row :: rest =>
    let p := update_csv_row uid checkin row
    let q := update_csv_mark_present rest uid checkin
    (p.1 :: q.1, p.2 || q.2)

/-- Observable operations of one tick, in program order: database writes,
ledger-file writes, and console diagnostics. -/
inductive Op where
  | storeMarkProcessed (epoch : Nat)
  | csvWrite (day uid checkin : Nat)
  | storeMarkPresent (day uid checkin : Nat)
  | logUnknown (uid epoch : Nat)
  | logAlready (uid existing : Nat)
  | logPresent (uid checkin : Nat)
  | logPollError
deriving DecidableEq, Repr

/-- The body of the `for rec in recs` loop of `poll_once` for one record:
skip if the epoch is already processed; otherwise mark it processed, then
check the roster, then the per-day presence, and finally update the CSV
ledger for the active day (`csvfile`) and the `present` table.  The CSV
file for `csvday` is assumed to exist (guaranteed by
`ensure_csv_for_today` before each poll); its rows default to `[]`. -/
def processEvent (users : Users) (csvday : Nat) (st : St) (r : Rec) : St × List Op :=
  let epoch := epochOf r
  if is_epoch_processed epoch st.db then (st, [])
  else
    let uid := r.user_id
    let st1 : St := { st with db := (mark_epoch_processed epoch st.db).2 }
    match users.lookup uid with
    | none => (st1, [.storeMarkProcessed epoch, .logUnknown uid epoch])
    | some _ =>
      let today := day_str_for_dt epoch
      match is_user_marked_today uid today st1.db with
      | some existing => (st1, [.storeMarkProcessed epoch, .logAlready uid existing])
      | none =>
        let checkin := device_epoch_to_local_str epoch
        let rows := (getFile csvday st1).getD []
        let p := update_csv_mark_present rows uid checkin
        let st2 := if p.2 then setFile csvday p.1 st1 else st1
        let st3 : St := { st2 with db := mark_user_present uid today checkin st2.db }
        (st3, [.storeMarkProcessed epoch, .csvWrite csvday uid checkin,
               .storeMarkPresent today uid checkin, .logPresent uid checkin])

/-- Sequential application of the sorted batch. -/
def applyEvents (users : Users) (csvday : Nat) (st : St) : List Rec → St × List Op
  | [] => (st, [])
  | r :: rs =>
    let p := processEvent users csvday st r
    let q := applyEvents users csvday p.1 rs
    (q.1, p.2 ++ q.2)

/-- Sort key of `sorted(recs, key=lambda r: r.timestamp)`. -/
def recLE (a b : Rec) : Bool := decide (a.timestamp ≤ b.timestamp)

/-- Models `poll_once(users, csvfile)` on a batch `recs` returned by the
device: sort ascending by timestamp (stably), then fold every record into
the state. -/
def poll_once (users : Users) (csvday : Nat) (recs : List Rec) (st : St) : St × List Op :=
  applyEvents users csvday st (recs.mergeSort recLE)

/-- Result of a poll in the fault model: final state, trace, and whether
the batch was aborted by an exception. -/
structure FRes where
  st : St
  trace : List Op
  aborted : Bool
deriving DecidableEq, Repr

/-- Fault-injecting variant of the `for` loop: `fails r` means the first
sqlite write attempted for record `r` (its `mark_epoch_processed` call)
raises an I/O error.  The whole loop body sits inside the single
`try ... except` of `poll_once`, so the exception ends the loop; the
`except` branch prints `Poll error` and `poll_once` returns.  A record
skipped as already processed performs no store write and cannot fault. -/
def applyEventsF (fails : Rec → Bool) (users : Users) (csvday : Nat) (st : St) :
    List Rec → FRes
  | [] => ⟨st, [], false⟩
  | r :: rs =>
    if is_epoch_processed (epochOf r) st.db then applyEventsF fails users csvday st rs
    else if fails r then ⟨st, [.logPollError], true⟩
    else
      let p := processEvent users csvday st r
      let res := applyEventsF fails users csvday p.1 rs
      ⟨res.st, p.2 ++ res.trace, res.aborted⟩

/-- `poll_once` in the fault model. -/
def poll_once_flt (fails : Rec → Bool) (users : Users) (csvday : Nat)
    (recs : List Rec) (st : St) : FRes :=
  applyEventsF fails users csvday st (recs.mergeSort recLE)

/-- The qualifying-event predicate for person `P` and day `D`. -/
def isEventFor (P D : Nat) (x : Rec) : Bool :=
  x.user_id == P && day_str_for_dt (epochOf x) == D

/-- Wall-clock input of `ensure_csv_for_today`: `datetime.now()` reduced
to the calendar day and the local hour. -/
structure Now where
  day : Nat
  hour : Nat
deriving DecidableEq, Repr

/-- The active day: shifted to the previous day when the current local
hour is before the rollover hour. -/
def active_day_of (rollover_hour : Nat) (now : Now) : Nat :=
  if now.hour < rollover_hour then now.day - 1 else now.day

/-- Models `ensure_csv_for_today(users)`: if the stored
`current_csv_date` differs from the active day, or the active day's CSV
file does not exist, materialize a fresh all-Absent ledger (which also
updates the pointer); returns the state and the active day. -/
def ensure_csv_for_today (users : Users) (rollover_hour : Nat) (now : Now)
    (st : St) : St × Nat :=
  let daystr := active_day_of rollover_hour now
  if get_meta "current_csv_date" st.db ≠ some daystr ∨ getFile daystr st = none then
    (make_daily_csv users daystr st, daystr)
  else (st, daystr)

/-- Result of one iteration of the `while True` loop of `main_loop`. -/
structure TickRes where
  users : Users
  daystr : Nat
  st : St
  reloaded : Bool
  trace : List Op
deriving DecidableEq, Repr

/-- One iteration of `main_loop`'s loop: day-check, conditional roster
reload (`load_users()` would return `freshUsers`), then one poll against
the active day's CSV file. -/
def main_loop_tick (freshUsers users : Users) (daystr rollover_hour : Nat)
    (now : Now) (recs : List Rec) (st : St) : TickRes :=
  let e := ensure_csv_for_today users rollover_hour now st
  let newday := e.2
  let u := if newday ≠ daystr then (freshUsers, true) else (users, false)
  let p := poll_once u.1 newday recs e.1
  ⟨u.1, newday, p.1, u.2, p.2⟩

/-! Basic lemmas about the store operations and one apply step. -/

theorem is_epoch_processed_true_iff (e : Nat) (db : DB) :
    is_epoch_processed e db = true ↔ e ∈ db.processed := by
  simp [is_epoch_processed]

theorem mark_epoch_processed_present (e : Nat) (db : DB) :
    (mark_epoch_processed e db).2.present = db.present := by
  unfold mark_epoch_processed
  split <;> rfl

theorem mark_epoch_processed_ret_none (e : Nat) (db : DB) :
    (mark_epoch_processed e db).1 = none := by
  unfold mark_epoch_processed
  split <;> rfl

theorem processEvent_skip (users : Users) (csvday : Nat) (st : St) (r : Rec)
    (h : is_epoch_processed (epochOf r) st.db = true) :
    processEvent users csvday st r = (st, []) := by
  simp [processEvent, h]

theorem processEvent_processed_eq (users : Users) (csvday : Nat) (st : St) (r : Rec) :
    (processEvent users csvday st r).1.db.processed =
      if epochOf r ∈ st.db.processed then st.db.processed
      else epochOf r :: st.db.processed := by
  by_cases h : epochOf r ∈ st.db.processed
  · rw [processEvent_skip users csvday st r ((is_epoch_processed_true_iff _ _).mpr h),
      if_pos h]
  · rw [if_neg h]
    have hb : is_epoch_processed (epochOf r) st.db = false := by
      simp [is_epoch_processed, h]
    simp only [processEvent, hb, Bool.false_eq_true, if_false]
    split
    · simp [mark_epoch_processed, h]
    · split
      · simp [mark_epoch_processed, h]
      · split <;> simp [mark_user_present, setFile, mark_epoch_processed, h]

theorem processEvent_processed_mono (users : Users) (csvday : Nat) (st : St) (r : Rec)
    (e : Nat) (h : e ∈ st.db.processed) :
    e ∈ (processEvent users csvday st r).1.db.processed := by
  rw [processEvent_processed_eq]
  split
  · exact h
  · exact List.mem_cons_of_mem _ h

theorem processEvent_mem_processed (users : Users) (csvday : Nat) (st : St) (r : Rec) :
    epochOf r ∈ (processEvent users csvday st r).1.db.processed := by
  rw [processEvent_processed_eq]
  split
  · assumption
  · exact List.mem_cons_self _ _

theorem find?_filter_of_imp {α : Type} (l : List α) (p q : α → Bool)
    (h : ∀ x, p x = true → q x = true) :
    (l.filter q).find? p = l.find? p := by
  induction l with
  | nil => rfl
  | cons a tl ih =>
    by_cases hq : q a = true
    · rw [List.filter_cons_of_pos hq]
      by_cases hp : p a = true
      · rw [List.find?_cons_of_pos _ hp, List.find?_cons_of_pos _ hp]
      · rw [List.find?_cons_of_neg _ (by simpa using hp),
          List.find?_cons_of_neg _ (by simpa using hp), ih]
    · have hp : p a = false := by
        cases hpa : p a
        · rfl
        · exact absurd (h a hpa) hq
      rw [List.filter_cons_of_neg (by simpa using hq),
        List.find?_cons_of_neg _ (by simp [hp]), ih]

theorem is_user_marked_mark_self (uid day v : Nat) (db : DB) :
    is_user_marked_today uid day (mark_user_present uid day v db) = some v := by
  simp [is_user_marked_today, mark_user_present, List.find?]

theorem is_user_marked_mark_other (uid day v P D : Nat) (db : DB)
    (h : ¬(D = day ∧ P = uid)) :
    is_user_marked_today P D (mark_user_present uid day v db) =
      is_user_marked_today P D db := by
  unfold is_user_marked_today mark_user_present
  simp only
  rw [List.find?_cons_of_neg]
  · rw [find?_filter_of_imp]
    intro x hx
    simp only [Bool.and_eq_true, beq_iff_eq] at hx
    simp only [Bool.not_eq_true', Bool.and_eq_false_iff, beq_eq_false_iff_ne, ne_eq]
    by_contra hc
    push_neg at hc
    rcases hc with ⟨h1, h2⟩
    exact h ⟨hx.1.symm.trans h1, hx.2.symm.trans h2⟩
  · simp only [Bool.and_eq_true, beq_iff_eq, not_and]
    intro h1 h2
    exact h ⟨h1.symm, h2.symm⟩

theorem is_user_marked_today_congr (P D : Nat) (db1 db2 : DB)
    (h : db1.present = db2.present) :
    is_user_marked_today P D db1 = is_user_marked_today P D db2 := by
  unfold is_user_marked_today
  rw [h]

theorem processEvent_present_frame (users : Users) (csvday : Nat) (st : St) (r : Rec)
    (P D : Nat) (h : ¬(D = day_str_for_dt (epochOf r) ∧ P = r.user_id)) :
    is_user_marked_today P D (processEvent users csvday st r).1.db =
      is_user_marked_today P D st.db := by
  by_cases hskip : is_epoch_processed (epochOf r) st.db = true
  · rw [processEvent_skip _ _ _ _ hskip]
  · have hb : is_epoch_processed (epochOf r) st.db = false := by
      simpa using hskip
    simp only [processEvent, hb, Bool.false_eq_true, if_false]
    split
    · exact is_user_marked_today_congr _ _ _ _ (mark_epoch_processed_present _ _)
    · split
      · exact is_user_marked_today_congr _ _ _ _ (mark_epoch_processed_present _ _)
      · split <;>
        · rw [is_user_marked_mark_other _ _ _ _ _ _ h]
          exact is_user_marked_today_congr _ _ _ _
            (by simp [setFile, mark_epoch_processed_present])

theorem processEvent_of_marked (users : Users) (csvday : Nat) (st : St) (r : Rec)
    (t : Nat)
    (hm : is_user_marked_today r.user_id (day_str_for_dt (epochOf r)) st.db = some t) :
    (processEvent users csvday st r).1.db.present = st.db.present ∧
      (processEvent users csvday st r).1.files = st.files := by
  by_cases hskip : is_epoch_processed (epochOf r) st.db = true
  · rw [processEvent_skip _ _ _ _ hskip]
    exact ⟨rfl, rfl⟩
  · have hb : is_epoch_processed (epochOf r) st.db = false := by
      simpa using hskip
    simp only [processEvent, hb, Bool.false_eq_true, if_false]
    split
    · exact ⟨mark_epoch_processed_present _ _, rfl⟩
    · have hm1 : is_user_marked_today r.user_id (day_str_for_dt (epochOf r))
          (mark_epoch_processed (epochOf r) st.db).2 = some t := by
        rw [is_user_marked_today_congr _ _ _ st.db (mark_epoch_processed_present _ _)]
        exact hm
      rw [hm1]
      exact ⟨mark_epoch_processed_present _ _, rfl⟩

theorem processEvent_marked_preserved (users : Users) (csvday : Nat) (st : St)
    (r : Rec) (P D v : Nat)
    (hm : is_user_marked_today P D st.db = some v) :
    is_user_marked_today P D (processEvent users csvday st r).1.db = some v := by
  by_cases hmatch : D = day_str_for_dt (epochOf r) ∧ P = r.user_id
  · obtain ⟨hD, hP⟩ := hmatch
    have hmm := processEvent_of_marked users csvday st r v (by rw [← hD, ← hP]; exact hm)
    rw [is_user_marked_today_congr P D _ st.db hmm.1]
    exact hm
  · rw [processEvent_present_frame users csvday st r P D hmatch]
    exact hm

theorem processEvent_marks (users : Users) (csvday : Nat) (st : St) (r : Rec)
    (hfresh : epochOf r ∉ st.db.processed)
    (huser : (users.lookup r.user_id).isSome = true)
    (hunmarked : is_user_marked_today r.user_id (day_str_for_dt (epochOf r)) st.db = none) :
    is_user_marked_today r.user_id (day_str_for_dt (epochOf r))
        (processEvent users csvday st r).1.db =
      some (device_epoch_to_local_str (epochOf r)) := by
  have hb : is_epoch_processed (epochOf r) st.db = false := by
    simp [is_epoch_processed, hfresh]
  simp only [processEvent, hb, Bool.false_eq_true, if_false]
  obtain ⟨name, hl⟩ := Option.isSome_iff_exists.mp huser
  rw [hl]
  have hm1 : is_user_marked_today r.user_id (day_str_for_dt (epochOf r))
      (mark_epoch_processed (epochOf r) st.db).2 = none := by
    rw [is_user_marked_today_congr _ _ _ st.db (mark_epoch_processed_present _ _)]
    exact hunmarked
  rw [hm1]
  simp only
  split <;> exact is_user_marked_mark_self _ _ _ _

/-! Lemmas about processing a whole batch. -/

theorem applyEvents_processed_mono (users : Users) (csvday : Nat) (st : St)
    (l : List Rec) (e : Nat) (h : e ∈ st.db.processed) :
    e ∈ (applyEvents users csvday st l).1.db.processed := by
  induction l generalizing st with
  | nil => exact h
  | cons r rs ih =>
    exact ih _ (processEvent_processed_mono users csvday st r e h)

theorem applyEvents_mem_processed (users : Users) (csvday : Nat) (st : St)
    (l : List Rec) (r : Rec) (hr : r ∈ l) :
    epochOf r ∈ (applyEvents users csvday st l).1.db.processed := by
  induction l generalizing st with
  | nil => cases hr
  | cons a rs ih =>
    rcases List.mem_cons.mp hr with h | h
    · subst h
      exact applyEvents_processed_mono users csvday _ rs _
        (processEvent_mem_processed users csvday st r)
    · exact ih _ h

theorem applyEvents_all_processed (users : Users) (csvday : Nat) (st : St)
    (l : List Rec) (h : ∀ r ∈ l, epochOf r ∈ st.db.processed) :
    applyEvents users csvday st l = (st, []) := by
  induction l with
  | nil => rfl
  | cons r rs ih =>
    have hskip := processEvent_skip users csvday st r
      ((is_epoch_processed_true_iff _ _).mpr (h r (List.mem_cons_self _ _)))
    simp only [applyEvents, hskip]
    rw [ih (fun x hx => h x (List.mem_cons_of_mem _ hx))]
    rfl

theorem poll_once_mem_processed (users : Users) (csvday : Nat) (recs : List Rec)
    (st : St) (r : Rec) (hr : r ∈ recs) :
    epochOf r ∈ (poll_once users csvday recs st).1.db.processed :=
  applyEvents_mem_processed users csvday st _ r (List.mem_mergeSort.mpr hr)

theorem poll_once_eq_of_sorted (users : Users) (csvday : Nat) (recs : List Rec)
    (st : St) (h : List.Pairwise (fun a b => recLE a b = true) recs) :
    poll_once users csvday recs st = applyEvents users csvday st recs := by
  unfold poll_once
  rw [List.mergeSort_of_sorted h]

theorem poll_once_flt_eq_of_sorted (fails : Rec → Bool) (users : Users)
    (csvday : Nat) (recs : List Rec) (st : St)
    (h : List.Pairwise (fun a b => recLE a b = true) recs) :
    poll_once_flt fails users csvday recs st =
      applyEventsF fails users csvday st recs := by
  unfold poll_once_flt
  rw [List.mergeSort_of_sorted h]

/-- C1.  At-most-once application: once an event's key has been marked
processed by a poll, a later poll whose batch re-reports events with any
of those keys changes nothing — every such event is skipped by the
`is_epoch_processed` check, the store and the ledger are left exactly as
they were (in particular `first_checkin_local` is unchanged), and no
observation is emitted. -/
theorem at_most_once_replay (users : Users) (csvday : Nat)
    (recs1 recs2 : List Rec) (st : St)
    (h : ∀ r2 ∈ recs2, ∃ r1 ∈ recs1, epochOf r2 = epochOf r1) :
    poll_once users csvday recs2 (poll_once users csvday recs1 st).1 =
      ((poll_once users csvday recs1 st).1, []) := by
  unfold poll_once
  apply applyEvents_all_processed
  intro r2 hr2
  obtain ⟨r1, hr1, he⟩ := h r2 (List.mem_mergeSort.mp hr2)
  rw [he]
  exact applyEvents_mem_processed users csvday st _ r1 (List.mem_mergeSort.mpr hr1)

/-- Witness for C1: a second poll that re-reports the same two records
(plus one sub-second duplicate) is a complete no-op. -/
theorem at_most_once_replay_witness :
    poll_once [(1, "Ann")] 0 [⟨1, 1000⟩, ⟨1, 1300⟩, ⟨1, 90000000⟩]
        (poll_once [(1, "Ann")] 0 [⟨1, 1000⟩, ⟨1, 1300⟩, ⟨1, 90000000⟩]
          ⟨⟨[], [], []⟩, [(0, absentRowsOf [(1, "Ann")])]⟩).1 =
      ((poll_once [(1, "Ann")] 0 [⟨1, 1000⟩, ⟨1, 1300⟩, ⟨1, 90000000⟩]
          ⟨⟨[], [], []⟩, [(0, absentRowsOf [(1, "Ann")])]⟩).1, []) :=
  at_most_once_replay _ _ _ _ _ (by decide)

/-- C7 counterexample.  Inserting the fresh key 5 into an empty store is
a new insert (`processed` becomes `[5]`), yet `mark_epoch_processed`
returns `None` (modelled `none`), not `true`: the function's return value
never reports whether the marker was newly inserted. -/
theorem mark_processed_returns_none_cex :
    (5 : Nat) ∉ (DB.mk [] [] []).processed ∧
      (mark_epoch_processed 5 ⟨[], [], []⟩).2.processed = [5] ∧
      (mark_epoch_processed 5 ⟨[], [], []⟩).1 = none ∧
      (mark_epoch_processed 5 ⟨[], [], []⟩).1 ≠ some true := by
  decide

/-- C7 (amended).  `mark_epoch_processed` returns no value (Python
`None`) on both paths; it inserts the marker when absent, leaves every
other key untouched, and is a no-op when the key is already present (the
already-present signal is obtained by the engine via
`is_epoch_processed` instead). -/
theorem mark_processed_semantics (e e2 : Nat) (db : DB) :
    (mark_epoch_processed e db).1 = none ∧
      is_epoch_processed e (mark_epoch_processed e db).2 = true ∧
      is_epoch_processed e2 (mark_epoch_processed e db).2 =
        (e2 == e || is_epoch_processed e2 db) ∧
      (mark_epoch_processed e (mark_epoch_processed e db).2).2 =
        (mark_epoch_processed e db).2 := by
  refine ⟨mark_epoch_processed_ret_none e db, ?_, ?_, ?_⟩ <;>
    by_cases h : e ∈ db.processed <;>
      by_cases h2 : e2 = e <;>
        simp_all [mark_epoch_processed, is_epoch_processed]

/-- C10.  Second-resolution event-key collision: if two raw events carry
timestamps inside the same second, then after the first has been folded
(in any poll, against any roster and any active day) the second is
skipped entirely by the `is_epoch_processed` check: the state is
unchanged (no `PresenceMarker`, no ledger change, for anyone) and no
observation is emitted. -/
theorem same_second_skipped (users1 users2 : Users) (csvday1 csvday2 : Nat)
    (st : St) (r1 r2 : Rec) (h : r1.timestamp / 1000 = r2.timestamp / 1000) :
    processEvent users2 csvday2 (processEvent users1 csvday1 st r1).1 r2 =
      ((processEvent users1 csvday1 st r1).1, []) := by
  apply processEvent_skip
  rw [is_epoch_processed_true_iff]
  have he : epochOf r2 = epochOf r1 := by
    simpa [epochOf] using h.symm
  rw [he]
  exact processEvent_mem_processed users1 csvday1 st r1

/-- Witness for C10: Ann scans at 1.5s, Bob at 1.7s of the same second;
Bob's event is dropped even though it is his first scan of the day. -/
theorem same_second_skipped_witness :
    processEvent [(1, "Ann"), (2, "Bob")] 0
        (processEvent [(1, "Ann"), (2, "Bob")] 0
          ⟨⟨[], [], []⟩, [(0, absentRowsOf [(1, "Ann"), (2, "Bob")])]⟩ ⟨1, 1500⟩).1
        ⟨2, 1700⟩ =
      ((processEvent [(1, "Ann"), (2, "Bob")] 0
          ⟨⟨[], [], []⟩, [(0, absentRowsOf [(1, "Ann"), (2, "Bob")])]⟩ ⟨1, 1500⟩).1,
        []) :=
  same_second_skipped _ _ _ _ _ _ _ (by decide)

/-- C8.  PresenceMarker immutability at the engine level: when a
presence marker `(day, person)` with value `t` already exists, folding a
further event of that person whose timestamp falls on the same day never
reaches `mark_user_present`: the `present` table (hence the stored
`first_checkin_local = t`) and the ledger files are unchanged. -/
theorem markPresent_immutable (users : Users) (csvday : Nat) (st : St)
    (r : Rec) (t : Nat)
    (hm : is_user_marked_today r.user_id (day_str_for_dt (epochOf r)) st.db = some t) :
    is_user_marked_today r.user_id (day_str_for_dt (epochOf r))
        (processEvent users csvday st r).1.db = some t ∧
      (processEvent users csvday st r).1.db.present = st.db.present ∧
      (processEvent users csvday st r).1.files = st.files := by
  have hp := processEvent_of_marked users csvday st r t hm
  exact ⟨by rw [is_user_marked_today_congr _ _ _ st.db hp.1]; exact hm, hp⟩

/-- Witness for C8: Ann is already present on day 0 with check-in 3; a
later scan of hers at second 500 of day 0 changes nothing. -/
theorem markPresent_immutable_witness :
    is_user_marked_today 1 0
        (processEvent [(1, "Ann")] 0
          ⟨⟨[], [], [(0, 1, 3)]⟩, [(0, absentRowsOf [(1, "Ann")])]⟩ ⟨1, 500000⟩).1.db =
      some 3 ∧
      (processEvent [(1, "Ann")] 0
          ⟨⟨[], [], [(0, 1, 3)]⟩, [(0, absentRowsOf [(1, "Ann")])]⟩ ⟨1, 500000⟩).1.db.present =
        (DB.mk [] [] [(0, 1, 3)]).present ∧
      (processEvent [(1, "Ann")] 0
          ⟨⟨[], [], [(0, 1, 3)]⟩, [(0, absentRowsOf [(1, "Ann")])]⟩ ⟨1, 500000⟩).1.files =
        (St.mk ⟨[], [], [(0, 1, 3)]⟩ [(0, absentRowsOf [(1, "Ann")])]).files :=
  markPresent_immutable [(1, "Ann")] 0
    ⟨⟨[], [], [(0, 1, 3)]⟩, [(0, absentRowsOf [(1, "Ann")])]⟩ ⟨1, 500000⟩ 3 (by decide)

/-- C5.  Unknown-person safety: an event whose person is not in the
roster and whose key is fresh is handled by marking the key processed
and emitting the diagnostic, in that order; the `present` table and the
ledger files are untouched, no presence op is emitted, and the step
returns normally. -/
theorem unknown_person_safe (users : Users) (csvday : Nat) (st : St) (r : Rec)
    (hu : users.lookup r.user_id = none)
    (hfresh : epochOf r ∉ st.db.processed) :
    processEvent users csvday st r =
      (⟨{ st.db with processed := epochOf r :: st.db.processed }, st.files⟩,
        [.storeMarkProcessed (epochOf r), .logUnknown r.user_id (epochOf r)]) := by
  have hb : is_epoch_processed (epochOf r) st.db = false := by
    simp [is_epoch_processed, hfresh]
  simp only [processEvent, hb, Bool.false_eq_true, if_false, hu]
  simp [mark_epoch_processed, hfresh]

/-- Witness for C5: person 7 is not in the roster; their fresh event at
second 2 is marked processed and logged, nothing else changes. -/
theorem unknown_person_safe_witness :
    processEvent [(1, "Ann")] 0
        ⟨⟨[], [], []⟩, [(0, absentRowsOf [(1, "Ann")])]⟩ ⟨7, 2000⟩ =
      (⟨⟨[], [2], []⟩, [(0, absentRowsOf [(1, "Ann")])]⟩,
        [.storeMarkProcessed 2, .logUnknown 7 2]) :=
  unknown_person_safe _ _ _ _ (by decide) (by decide)

/-- C3 counterexample.  For the newly qualifying event (Ann, second 1,
day 0) the emitted write trace is `[storeMarkProcessed, csvWrite,
storeMarkPresent, logPresent]`: the Daily Ledger (CSV) write sits at
index 1, strictly before the `present`-table (PresenceMarker) write at
index 2, so the store write does not precede the ledger write. -/
theorem store_write_order_cex :
    (processEvent [(1, "Ann")] 0
        ⟨⟨[], [], []⟩, [(0, absentRowsOf [(1, "Ann")])]⟩ ⟨1, 1000⟩).2 =
      [.storeMarkProcessed 1, .csvWrite 0 1 1, .storeMarkPresent 0 1 1,
        .logPresent 1 1] ∧
      (processEvent [(1, "Ann")] 0
          ⟨⟨[], [], []⟩, [(0, absentRowsOf [(1, "Ann")])]⟩ ⟨1, 1000⟩).2.indexOf
          (.csvWrite 0 1 1) <
        (processEvent [(1, "Ann")] 0
            ⟨⟨[], [], []⟩, [(0, absentRowsOf [(1, "Ann")])]⟩ ⟨1, 1000⟩).2.indexOf
          (.storeMarkPresent 0 1 1) := by
  decide

/-- C3 (amended).  For every newly qualifying event the apply step emits
exactly `[storeMarkProcessed, csvWrite, storeMarkPresent, logPresent]`:
the engine updates the Daily Ledger row first and only then writes the
PresenceMarker to the Durable State Store — the ledger write always
precedes the store write for the same event. -/
theorem apply_step_write_order (users : Users) (csvday : Nat) (st : St) (r : Rec)
    (hfresh : epochOf r ∉ st.db.processed)
    (huser : (users.lookup r.user_id).isSome = true)
    (hunmarked : is_user_marked_today r.user_id (day_str_for_dt (epochOf r)) st.db = none) :
    (processEvent users csvday st r).2 =
        [.storeMarkProcessed (epochOf r),
          .csvWrite csvday r.user_id (device_epoch_to_local_str (epochOf r)),
          .storeMarkPresent (day_str_for_dt (epochOf r)) r.user_id
            (device_epoch_to_local_str (epochOf r)),
          .logPresent r.user_id (device_epoch_to_local_str (epochOf r))] ∧
      ∃ i j, i < j ∧
        (processEvent users csvday st r).2.get? i =
          some (.csvWrite csvday r.user_id (device_epoch_to_local_str (epochOf r))) ∧
        (processEvent users csvday st r).2.get? j =
          some (.storeMarkPresent (day_str_for_dt (epochOf r)) r.user_id
            (device_epoch_to_local_str (epochOf r))) := by
  have hb : is_epoch_processed (epochOf r) st.db = false := by
    simp [is_epoch_processed, hfresh]
  obtain ⟨name, hl⟩ := Option.isSome_iff_exists.mp huser
  have hm1 : is_user_marked_today r.user_id (day_str_for_dt (epochOf r))
      (mark_epoch_processed (epochOf r) st.db).2 = none := by
    rw [is_user_marked_today_congr _ _ _ st.db (mark_epoch_processed_present _ _)]
    exact hunmarked
  have htr : (processEvent users csvday st r).2 =
      [.storeMarkProcessed (epochOf r),
        .csvWrite csvday r.user_id (device_epoch_to_local_str (epochOf r)),
        .storeMarkPresent (day_str_for_dt (epochOf r)) r.user_id
          (device_epoch_to_local_str (epochOf r)),
        .logPresent r.user_id (device_epoch_to_local_str (epochOf r))] := by
    simp only [processEvent, hb, Bool.false_eq_true, if_false, hl, hm1]
  exact ⟨htr, 1, 2, by omega, by rw [htr]; rfl, by rw [htr]; rfl⟩

/-- Witness for C3 (amended): concrete trace for Ann's first scan. -/
theorem apply_step_write_order_witness :
    (processEvent [(1, "Ann")] 3 ⟨⟨[], [], []⟩, [(3, absentRowsOf [(1, "Ann")])]⟩
          ⟨1, 5000⟩).2 =
        [.storeMarkProcessed 5, .csvWrite 3 1 5, .storeMarkPresent 0 1 5,
          .logPresent 1 5] ∧
      ∃ i j, i < j ∧
        (processEvent [(1, "Ann")] 3 ⟨⟨[], [], []⟩, [(3, absentRowsOf [(1, "Ann")])]⟩
            ⟨1, 5000⟩).2.get? i = some (.csvWrite 3 1 5) ∧
        (processEvent [(1, "Ann")] 3 ⟨⟨[], [], []⟩, [(3, absentRowsOf [(1, "Ann")])]⟩
            ⟨1, 5000⟩).2.get? j = some (.storeMarkPresent 0 1 5) :=
  apply_step_write_order [(1, "Ann")] 3
    ⟨⟨[], [], []⟩, [(3, absentRowsOf [(1, "Ann")])]⟩ ⟨1, 5000⟩
    (by decide) (by decide) (by decide)

theorem lookup_filter_ne (d c : Nat) (l : List (Nat × List Row)) (h : d ≠ c) :
    (l.filter (fun p => !(p.1 == c))).lookup d = l.lookup d := by
  induction l with
  | nil => rfl
  | cons a tl ih =>
    by_cases hk : a.1 = c
    · rw [List.filter_cons_of_neg (by simp [hk])]
      rw [ih, List.lookup]
      have : (d == a.1) = false := by simp [hk, h]
      rw [this]
    · rw [List.filter_cons_of_pos (by simp [hk])]
      rw [List.lookup, List.lookup]
      cases hd : d == a.1
      · exact ih
      · rfl

theorem getFile_frame (users : Users) (csvday : Nat) (st : St) (r : Rec)
    (d : Nat) (hd : d ≠ csvday) :
    getFile d (processEvent users csvday st r).1 = getFile d st := by
  by_cases hskip : is_epoch_processed (epochOf r) st.db = true
  · rw [processEvent_skip _ _ _ _ hskip]
  · have hb : is_epoch_processed (epochOf r) st.db = false := by
      simpa using hskip
    simp only [processEvent, hb, Bool.false_eq_true, if_false]
    split
    · rfl
    · split
      · rfl
      · split
        · unfold getFile setFile
          simp only
          rw [List.lookup]
          have : (d == csvday) = false := by simp [hd]
          rw [this, lookup_filter_ne _ _ _ hd]
        · rfl

theorem applyEventsF_fault_stops (fails : Rec → Bool) (users : Users)
    (csvday : Nat) (r : Rec) (post : List Rec) (st : St) (pre : List Rec)
    (hpre : ∀ x ∈ pre, fails x = false) (hf : fails r = true)
    (hfr : epochOf r ∉ (applyEvents users csvday st pre).1.db.processed) :
    applyEventsF fails users csvday st (pre ++ r :: post) =
      ⟨(applyEvents users csvday st pre).1,
        (applyEvents users csvday st pre).2 ++ [.logPollError], true⟩ := by
  induction pre generalizing st with
  | nil =>
    have hb : is_epoch_processed (epochOf r) st.db = false := by
      simp only [applyEvents] at hfr
      simpa [is_epoch_processed] using hfr
    simp [applyEventsF, hb, hf, applyEvents]
  | cons a tl ih =>
    have ha : fails a = false := hpre a (List.mem_cons_self _ _)
    by_cases hskip : is_epoch_processed (epochOf a) st.db = true
    · have hstep := processEvent_skip users csvday st a hskip
      simp only [applyEvents, hstep] at hfr
      simp only [List.cons_append, applyEventsF, hskip, if_true, applyEvents, hstep,
        List.append_eq]
      rw [ih st (fun x hx => hpre x (List.mem_cons_of_mem _ hx)) hfr]
      simp
    · have hb2 : is_epoch_processed (epochOf a) st.db = false := by
        simpa using hskip
      simp only [applyEvents] at hfr
      simp only [List.cons_append, applyEventsF, hb2, Bool.false_eq_true, if_false,
        ha, applyEvents, List.append_eq]
      rw [ih (processEvent users csvday st a).1
        (fun x hx => hpre x (List.mem_cons_of_mem _ hx)) hfr]
      simp

/-- C6 counterexample.  Three fresh events (seconds 1, 5, 9) for three
roster persons; the store write for the second event (second 5) raises.
The code's single `try` around the whole `for` loop means the exception
ends the batch: the third event is never applied (its key is not
processed, person 3 stays unmarked), refuting "the engine continues
applying the remaining events of the same poll batch". -/
theorem store_fault_continue_cex :
    (poll_once_flt (fun r => r.timestamp == 5000)
          [(1, "Ann"), (2, "Bob"), (3, "Cid")] 0
          [⟨1, 1000⟩, ⟨2, 5000⟩, ⟨3, 9000⟩]
          ⟨⟨[], [], []⟩,
            [(0, [⟨1, "Ann", "Absent", none⟩, ⟨2, "Bob", "Absent", none⟩,
              ⟨3, "Cid", "Absent", none⟩])]⟩).aborted =
        true ∧
      is_epoch_processed 1
        (poll_once_flt (fun r => r.timestamp == 5000)
          [(1, "Ann"), (2, "Bob"), (3, "Cid")] 0
          [⟨1, 1000⟩, ⟨2, 5000⟩, ⟨3, 9000⟩]
          ⟨⟨[], [], []⟩,
            [(0, [⟨1, "Ann", "Absent", none⟩, ⟨2, "Bob", "Absent", none⟩,
              ⟨3, "Cid", "Absent", none⟩])]⟩).st.db =
        true ∧
      is_epoch_processed 9
        (poll_once_flt (fun r => r.timestamp == 5000)
          [(1, "Ann"), (2, "Bob"), (3, "Cid")] 0
          [⟨1, 1000⟩, ⟨2, 5000⟩, ⟨3, 9000⟩]
          ⟨⟨[], [], []⟩,
            [(0, [⟨1, "Ann", "Absent", none⟩, ⟨2, "Bob", "Absent", none⟩,
              ⟨3, "Cid", "Absent", none⟩])]⟩).st.db =
        false ∧
      is_user_marked_today 3 0
        (poll_once_flt (fun r => r.timestamp == 5000)
          [(1, "Ann"), (2, "Bob"), (3, "Cid")] 0
          [⟨1, 1000⟩, ⟨2, 5000⟩, ⟨3, 9000⟩]
          ⟨⟨[], [], []⟩,
            [(0, [⟨1, "Ann", "Absent", none⟩, ⟨2, "Bob", "Absent", none⟩,
              ⟨3, "Cid", "Absent", none⟩])]⟩).st.db =
        none := by
  rw [poll_once_flt_eq_of_sorted (fun r => r.timestamp == 5000)
    [(1, "Ann"), (2, "Bob"), (3, "Cid")] 0 [⟨1, 1000⟩, ⟨2, 5000⟩, ⟨3, 9000⟩]
    ⟨⟨[], [], []⟩, [(0, [⟨1, "Ann", "Absent", none⟩, ⟨2, "Bob", "Absent", none⟩,
              ⟨3, "Cid", "Absent", none⟩])]⟩
    (by decide)]
  decide

/-- C6 (amended).  A store I/O failure while applying one event of a
poll batch aborts the rest of the batch: the events sorted before the
failing one keep their effects, a poll error is logged, and the events
after the failing one are not applied in this tick (the exception is
caught outside the `for` loop, so the process itself continues). -/
theorem store_fault_aborts_batch (fails : Rec → Bool) (users : Users)
    (csvday : Nat) (recs : List Rec) (st : St) (pre : List Rec) (r : Rec)
    (post : List Rec)
    (hsplit : recs.mergeSort recLE = pre ++ r :: post)
    (hpre : ∀ x ∈ pre, fails x = false) (hf : fails r = true)
    (hfr : epochOf r ∉ (applyEvents users csvday st pre).1.db.processed) :
    poll_once_flt fails users csvday recs st =
      ⟨(applyEvents users csvday st pre).1,
        (applyEvents users csvday st pre).2 ++ [.logPollError], true⟩ := by
  unfold poll_once_flt
  rw [hsplit]
  exact applyEventsF_fault_stops fails users csvday r post st pre hpre hf hfr

/-- Witness for C6 (amended): with the batch of the counterexample, the
result is exactly the state after the first event plus a poll error. -/
theorem store_fault_aborts_batch_witness :
    poll_once_flt (fun r => r.timestamp == 5000)
        [(1, "Ann"), (2, "Bob"), (3, "Cid")] 0
        [⟨1, 1000⟩, ⟨2, 5000⟩, ⟨3, 9000⟩]
        ⟨⟨[], [], []⟩,
          [(0, [⟨1, "Ann", "Absent", none⟩, ⟨2, "Bob", "Absent", none⟩,
              ⟨3, "Cid", "Absent", none⟩])]⟩ =
      ⟨(applyEvents [(1, "Ann"), (2, "Bob"), (3, "Cid")] 0
          ⟨⟨[], [], []⟩,
            [(0, [⟨1, "Ann", "Absent", none⟩, ⟨2, "Bob", "Absent", none⟩,
              ⟨3, "Cid", "Absent", none⟩])]⟩
          [⟨1, 1000⟩]).1,
        (applyEvents [(1, "Ann"), (2, "Bob"), (3, "Cid")] 0
          ⟨⟨[], [], []⟩,
            [(0, [⟨1, "Ann", "Absent", none⟩, ⟨2, "Bob", "Absent", none⟩,
              ⟨3, "Cid", "Absent", none⟩])]⟩
          [⟨1, 1000⟩]).2 ++ [.logPollError], true⟩ :=
  store_fault_aborts_batch (fun r => r.timestamp == 5000)
    [(1, "Ann"), (2, "Bob"), (3, "Cid")] 0 [⟨1, 1000⟩, ⟨2, 5000⟩, ⟨3, 9000⟩]
    ⟨⟨[], [], []⟩, [(0, [⟨1, "Ann", "Absent", none⟩, ⟨2, "Bob", "Absent", none⟩,
              ⟨3, "Cid", "Absent", none⟩])]⟩
    [⟨1, 1000⟩] ⟨2, 5000⟩ [⟨3, 9000⟩]
    (by rw [List.mergeSort_of_sorted (by decide)]; rfl)
    (by decide) (by decide) (by decide)

/-- C4 counterexample.  Roster `{1: Ann}`, active ledger day 1, empty
store.  An event of person 1 with timestamp 0 is attributed by its own
timestamp to day 0 (≠ 1), yet applying it flips Ann's row in day 1's
ledger file from Absent to Present: presence recorded for day 0 changes
the Present status of day 1 in a daily ledger file. -/
theorem day_isolation_cex :
    day_str_for_dt (epochOf (⟨1, 0⟩ : Rec)) = 0 ∧ (0 : Nat) ≠ 1 ∧
      getFile 1 (⟨⟨[], [], []⟩, [(1, [⟨1, "Ann", "Absent", none⟩])]⟩ : St) =
        some [⟨1, "Ann", "Absent", none⟩] ∧
      getFile 1 (processEvent [(1, "Ann")] 1
            ⟨⟨[], [], []⟩, [(1, [⟨1, "Ann", "Absent", none⟩])]⟩ ⟨1, 0⟩).1 =
        some [⟨1, "Ann", "Present", some 0⟩] := by
  decide

/-- C4 (amended).  Day isolation holds in the durable `present` table:
an event attributed by its own timestamp to one day never changes the
presence entry of any person for a different day.  Ledger files other
than the currently active day's file are also never touched; the
isolation fails only for the active ledger file, which the apply step
always targets regardless of the event's own day. -/
theorem day_isolation_amended (users : Users) (csvday : Nat) (st : St) (r : Rec)
    (P D2 d : Nat) (hD : D2 ≠ day_str_for_dt (epochOf r)) (hd : d ≠ csvday) :
    is_user_marked_today P D2 (processEvent users csvday st r).1.db =
        is_user_marked_today P D2 st.db ∧
      getFile d (processEvent users csvday st r).1 = getFile d st :=
  ⟨processEvent_present_frame users csvday st r P D2 (fun hc => hD hc.1),
    getFile_frame users csvday st r d hd⟩

/-- Witness for C4 (amended): the day-0 event of person 1 leaves the
day-1 presence entry and the day-0 ledger file untouched. -/
theorem day_isolation_amended_witness :
    is_user_marked_today 1 1 (processEvent [(1, "Ann")] 1
          ⟨⟨[], [], []⟩, [(1, [⟨1, "Ann", "Absent", none⟩])]⟩ ⟨1, 0⟩).1.db =
        is_user_marked_today 1 1
          (St.mk ⟨[], [], []⟩ [(1, [⟨1, "Ann", "Absent", none⟩])]).db ∧
      getFile 0 (processEvent [(1, "Ann")] 1
          ⟨⟨[], [], []⟩, [(1, [⟨1, "Ann", "Absent", none⟩])]⟩ ⟨1, 0⟩).1 =
        getFile 0 (St.mk ⟨[], [], []⟩ [(1, [⟨1, "Ann", "Absent", none⟩])]) :=
  day_isolation_amended [(1, "Ann")] 1
    ⟨⟨[], [], []⟩, [(1, [⟨1, "Ann", "Absent", none⟩])]⟩ ⟨1, 0⟩ 1 1 0
    (by decide) (by decide)




theorem applyEvents_marked_preserved (users : Users) (csvday : Nat)
    (P D v : Nat) (st : St) (l : List Rec)
    (hm : is_user_marked_today P D st.db = some v) :
    is_user_marked_today P D (applyEvents users csvday st l).1.db = some v := by
  induction l generalizing st with
  | nil => exact hm
  | cons a tl ih =>
    exact ih _ (processEvent_marked_preserved users csvday st a P D v hm)

theorem applyEvents_first_match (users : Users) (csvday : Nat) (P D : Nat)
    (l : List Rec) (st : St)
    (hP : (users.lookup P).isSome = true)
    (hnodup : (l.map epochOf).Nodup)
    (hfresh : ∀ x ∈ l, epochOf x ∉ st.db.processed)
    (hunmarked : is_user_marked_today P D st.db = none) :
    is_user_marked_today P D (applyEvents users csvday st l).1.db =
      (l.find? (isEventFor P D)).map
        (fun x => device_epoch_to_local_str (epochOf x)) := by
  induction l generalizing st with
  | nil => simpa using hunmarked
  | cons a tl ih =>
    have hfa : epochOf a ∉ st.db.processed := hfresh a (List.mem_cons_self _ _)
    have hnd : epochOf a ∉ tl.map epochOf ∧ (tl.map epochOf).Nodup := by
      simpa [List.nodup_cons] using hnodup
    by_cases hmatch : isEventFor P D a = true
    · rw [List.find?_cons_of_pos _ hmatch]
      obtain ⟨h1, h2⟩ : a.user_id = P ∧ day_str_for_dt (epochOf a) = D := by
        simpa [isEventFor] using hmatch
      have hmarked : is_user_marked_today P D (processEvent users csvday st a).1.db =
          some (device_epoch_to_local_str (epochOf a)) := by
        have hh := processEvent_marks users csvday st a hfa
          (by rw [h1]; exact hP) (by rw [h1, h2]; exact hunmarked)
        rw [h1, h2] at hh
        exact hh
      exact applyEvents_marked_preserved users csvday P D _
        (processEvent users csvday st a).1 tl hmarked
    · rw [List.find?_cons_of_neg _ hmatch]
      have hnm : ¬(D = day_str_for_dt (epochOf a) ∧ P = a.user_id) := by
        intro hc
        exact hmatch (by simp [isEventFor, hc.1.symm, hc.2.symm])
      have h1 : is_user_marked_today P D (processEvent users csvday st a).1.db = none := by
        rw [processEvent_present_frame users csvday st a P D hnm]
        exact hunmarked
      have h2 : ∀ x ∈ tl, epochOf x ∉ (processEvent users csvday st a).1.db.processed := by
        intro x hx
        rw [processEvent_processed_eq]
        split
        · exact hfresh x (List.mem_cons_of_mem _ hx)
        · intro hmem
          rcases List.mem_cons.mp hmem with he | he
          · exact hnd.1 (by rw [← he]; exact List.mem_map_of_mem _ hx)
          · exact hfresh x (List.mem_cons_of_mem _ hx) he
      exact ih (processEvent users csvday st a).1 hnd.2 h2 h1

theorem recLE_trans (a b c : Rec) (hab : recLE a b = true) (hbc : recLE b c = true) :
    recLE a c = true := by
  simp only [recLE, decide_eq_true_eq] at hab hbc ⊢
  omega

theorem recLE_total (a b : Rec) : (recLE a b || recLE b a) = true := by
  simp only [recLE, Bool.or_eq_true, decide_eq_true_eq]
  omega

theorem find?_min_of_sorted (p : Rec → Bool) (l : List Rec) (r0 : Rec)
    (hsort : List.Pairwise (fun a b => recLE a b = true) l)
    (hfind : l.find? p = some r0) :
    ∀ x ∈ l, p x = true → r0.timestamp ≤ x.timestamp := by
  induction l with
  | nil => cases hfind
  | cons a tl ih =>
    rcases List.pairwise_cons.mp hsort with ⟨hhead, htail⟩
    by_cases hp : p a = true
    · rw [List.find?_cons_of_pos _ hp] at hfind
      obtain rfl : a = r0 := by
        injection hfind
      intro x hx hpx
      rcases List.mem_cons.mp hx with rfl | hx2
      · exact Nat.le_refl _
      · simpa [recLE] using hhead x hx2
    · rw [List.find?_cons_of_neg _ (by simpa using hp)] at hfind
      intro x hx hpx
      rcases List.mem_cons.mp hx with rfl | hx2
      · exact absurd hpx hp
      · exact ih htail hfind x hx2 hpx

/-- C2.  First-seen invariant: `poll_once` processes the batch in
ascending timestamp order, and for a roster person `P` and day `D` that
start unmarked, if the batch (all fresh, pairwise-distinct epoch keys)
contains qualifying events for `(P, D)`, then after the poll the stored
`first_checkin_local` for `(D, P)` is exactly the check-in string of the
chronologically earliest qualifying event; the later same-day events of
`P` leave it unchanged. -/
theorem first_seen_invariant (users : Users) (csvday : Nat) (recs : List Rec)
    (st : St) (P D : Nat)
    (hP : (users.lookup P).isSome = true)
    (hnodup : (recs.map epochOf).Nodup)
    (hfresh : ∀ x ∈ recs, epochOf x ∉ st.db.processed)
    (hunmarked : is_user_marked_today P D st.db = none)
    (hex : ∃ x ∈ recs, x.user_id = P ∧ day_str_for_dt (epochOf x) = D) :
    ∃ r0 ∈ recs, r0.user_id = P ∧ day_str_for_dt (epochOf r0) = D ∧
      (∀ x ∈ recs, x.user_id = P → day_str_for_dt (epochOf x) = D →
        r0.timestamp ≤ x.timestamp) ∧
      is_user_marked_today P D (poll_once users csvday recs st).1.db =
        some (device_epoch_to_local_str (epochOf r0)) := by
  have hperm : List.Perm (recs.mergeSort recLE) recs := List.mergeSort_perm recs recLE
  have hnodup2 : ((recs.mergeSort recLE).map epochOf).Nodup :=
    ((hperm.map epochOf).nodup_iff).mpr hnodup
  have hfresh2 : ∀ x ∈ recs.mergeSort recLE, epochOf x ∉ st.db.processed :=
    fun x hx => hfresh x (List.mem_mergeSort.mp hx)
  have hfind : ∃ r0, (recs.mergeSort recLE).find? (isEventFor P D) = some r0 := by
    rw [← Option.isSome_iff_exists, List.find?_isSome]
    obtain ⟨x, hx, hx1, hx2⟩ := hex
    exact ⟨x, List.mem_mergeSort.mpr hx, by simp [isEventFor, hx1, hx2]⟩
  obtain ⟨r0, hfind⟩ := hfind
  have hp0 : isEventFor P D r0 = true := List.find?_some hfind
  have hmem0 : r0 ∈ recs := List.mem_mergeSort.mp (List.mem_of_find?_eq_some hfind)
  obtain ⟨h1, h2⟩ : r0.user_id = P ∧ day_str_for_dt (epochOf r0) = D := by
    simpa [isEventFor] using hp0
  have hsort : List.Pairwise (fun a b => recLE a b = true) (recs.mergeSort recLE) :=
    List.sorted_mergeSort recLE_trans recLE_total recs
  refine ⟨r0, hmem0, h1, h2, ?_, ?_⟩
  · intro x hx hxP hxD
    exact find?_min_of_sorted (isEventFor P D) (recs.mergeSort recLE) r0 hsort hfind
      x (List.mem_mergeSort.mpr hx) (by simp [isEventFor, hxP, hxD])
  · unfold poll_once
    rw [applyEvents_first_match users csvday P D (recs.mergeSort recLE) st
      hP hnodup2 hfresh2 hunmarked, hfind]
    rfl

/-- Witness for C2: Ann scans at seconds 5 and 3 of day 0 (reported out
of order); the earliest qualifying event is the one at second 3. -/
theorem first_seen_invariant_witness :
    ∃ r0 ∈ [(⟨1, 5000⟩ : Rec), ⟨1, 3000⟩], r0.user_id = 1 ∧
      day_str_for_dt (epochOf r0) = 0 ∧
      (∀ x ∈ [(⟨1, 5000⟩ : Rec), ⟨1, 3000⟩], x.user_id = 1 →
        day_str_for_dt (epochOf x) = 0 → r0.timestamp ≤ x.timestamp) ∧
      is_user_marked_today 1 0
          (poll_once [(1, "Ann")] 0 [⟨1, 5000⟩, ⟨1, 3000⟩]
            ⟨⟨[], [], []⟩, [(0, [⟨1, "Ann", "Absent", none⟩])]⟩).1.db =
        some (device_epoch_to_local_str (epochOf r0)) :=
  first_seen_invariant [(1, "Ann")] 0 [⟨1, 5000⟩, ⟨1, 3000⟩]
    ⟨⟨[], [], []⟩, [(0, [⟨1, "Ann", "Absent", none⟩])]⟩ 1 0
    (by decide) (by decide) (by decide) (by decide) (by decide)

/-! Lemmas about day-check and ledger materialization. -/

theorem natLE_trans (a b c : Nat) (hab : natLE a b = true) (hbc : natLE b c = true) :
    natLE a c = true := by
  simp only [natLE, decide_eq_true_eq] at hab hbc ⊢
  omega

theorem natLE_total (a b : Nat) : (natLE a b || natLE b a) = true := by
  simp only [natLE, Bool.or_eq_true, decide_eq_true_eq]
  omega

theorem absentRowsOf_ids (users : Users) :
    (absentRowsOf users).map Row.id = (users.map Prod.fst).mergeSort natLE := by
  simp only [absentRowsOf, List.map_map]
  have hcomp : (Row.id ∘ fun uid =>
      (⟨uid, userName users uid, "Absent", none⟩ : Row)) = fun x => x := by
    funext x
    rfl
  rw [hcomp, List.map_id']

theorem absentRowsOf_sorted (users : Users) :
    List.Pairwise (fun a b : Nat => a ≤ b) ((absentRowsOf users).map Row.id) := by
  rw [absentRowsOf_ids]
  exact List.Pairwise.imp (fun h => by simpa [natLE] using h)
    (List.sorted_mergeSort natLE_trans natLE_total _)

theorem absentRowsOf_perm (users : Users) :
    List.Perm ((absentRowsOf users).map Row.id) (users.map Prod.fst) := by
  rw [absentRowsOf_ids]
  exact List.mergeSort_perm _ _

theorem absentRowsOf_nodup (users : Users) (h : (users.map Prod.fst).Nodup) :
    ((absentRowsOf users).map Row.id).Nodup :=
  (absentRowsOf_perm users).nodup_iff.mpr h

theorem absentRowsOf_absent (users : Users) :
    ∀ row ∈ absentRowsOf users, row.status = "Absent" ∧
      row.first_checkin_local = none := by
  intro row hrow
  obtain ⟨uid, _, rfl⟩ := List.mem_map.mp hrow
  exact ⟨rfl, rfl⟩

theorem getFile_make_daily_csv (users : Users) (day : Nat) (st : St) :
    getFile day (make_daily_csv users day st) = some (absentRowsOf users) := by
  simp [make_daily_csv, setFile, getFile, List.lookup]

theorem get_meta_make_daily_csv (users : Users) (day : Nat) (st : St) :
    get_meta "current_csv_date" (make_daily_csv users day st).db = some day := by
  simp [make_daily_csv, set_meta, get_meta, List.lookup]

theorem poll_once_nil (users : Users) (csvday : Nat) (st : St) :
    poll_once users csvday [] st = (st, []) := by
  unfold poll_once
  rw [List.mergeSort_nil]
  rfl

theorem ensure_csv_trigger (users : Users) (rollover_hour : Nat) (now : Now)
    (st : St)
    (h : get_meta "current_csv_date" st.db ≠ some (active_day_of rollover_hour now) ∨
      getFile (active_day_of rollover_hour now) st = none) :
    ensure_csv_for_today users rollover_hour now st =
      (make_daily_csv users (active_day_of rollover_hour now) st,
        active_day_of rollover_hour now) := by
  simp only [ensure_csv_for_today]
  rw [if_pos h]

/-- C9 (amended).  On a tick whose day-check trigger fires (stored
pointer differs from the computed active day, or the active day's ledger
file is missing), a fresh ledger for the active day is materialized from
the roster currently in memory — one Absent row per person, sorted by
id — and the `current_csv_date` pointer is updated; but the roster is
reloaded only when the active day differs from the previous tick's day,
and even then only after the materialization already used the old
roster. -/
theorem day_check_materialize (freshUsers users : Users)
    (daystr rollover_hour : Nat) (now : Now) (st : St)
    (hnd : (users.map Prod.fst).Nodup)
    (htrigger :
      get_meta "current_csv_date" st.db ≠ some (active_day_of rollover_hour now) ∨
        getFile (active_day_of rollover_hour now) st = none) :
    getFile (active_day_of rollover_hour now)
        (main_loop_tick freshUsers users daystr rollover_hour now [] st).st =
      some (absentRowsOf users) ∧
      get_meta "current_csv_date"
          (main_loop_tick freshUsers users daystr rollover_hour now [] st).st.db =
        some (active_day_of rollover_hour now) ∧
      (main_loop_tick freshUsers users daystr rollover_hour now [] st).users =
        (if active_day_of rollover_hour now ≠ daystr then freshUsers else users) ∧
      (main_loop_tick freshUsers users daystr rollover_hour now [] st).reloaded =
        decide (active_day_of rollover_hour now ≠ daystr) ∧
      List.Pairwise (fun a b : Nat => a ≤ b) ((absentRowsOf users).map Row.id) ∧
      List.Perm ((absentRowsOf users).map Row.id) (users.map Prod.fst) ∧
      ((absentRowsOf users).map Row.id).Nodup ∧
      ∀ row ∈ absentRowsOf users, row.status = "Absent" ∧
        row.first_checkin_local = none := by
  have hmt : main_loop_tick freshUsers users daystr rollover_hour now [] st =
      ⟨(if active_day_of rollover_hour now ≠ daystr then (freshUsers, true)
          else (users, false)).1,
        active_day_of rollover_hour now,
        make_daily_csv users (active_day_of rollover_hour now) st,
        (if active_day_of rollover_hour now ≠ daystr then (freshUsers, true)
          else (users, false)).2, []⟩ := by
    simp only [main_loop_tick, ensure_csv_trigger users rollover_hour now st htrigger,
      poll_once_nil]
  rw [hmt]
  refine ⟨getFile_make_daily_csv users _ st, get_meta_make_daily_csv users _ st,
    ?_, ?_, absentRowsOf_sorted users, absentRowsOf_perm users,
    absentRowsOf_nodup users hnd, absentRowsOf_absent users⟩
  · split <;> rfl
  · by_cases h : active_day_of rollover_hour now ≠ daystr <;> simp [h]

/-- C9 counterexample.  Pointer and active day agree (day 5) but the
ledger file is missing, so the trigger fires: the ledger is
rematerialized and the pointer rewritten, yet the roster is NOT
reloaded (the fresh roster with Bob is ignored; the ledger is built from
the stale in-memory roster) — refuting "then the roster is reloaded". -/
theorem day_check_reload_cex :
    getFile 5 (⟨⟨[("current_csv_date", 5)], [], []⟩, []⟩ : St) = none ∧
      (main_loop_tick [(1, "Ann"), (2, "Bob")] [(1, "Ann")] 5 0 ⟨5, 8⟩ []
          ⟨⟨[("current_csv_date", 5)], [], []⟩, []⟩).reloaded = false ∧
      (main_loop_tick [(1, "Ann"), (2, "Bob")] [(1, "Ann")] 5 0 ⟨5, 8⟩ []
          ⟨⟨[("current_csv_date", 5)], [], []⟩, []⟩).users = [(1, "Ann")] ∧
      ([(1, "Ann")] : Users) ≠ [(1, "Ann"), (2, "Bob")] ∧
      getFile 5 (main_loop_tick [(1, "Ann"), (2, "Bob")] [(1, "Ann")] 5 0 ⟨5, 8⟩ []
          ⟨⟨[("current_csv_date", 5)], [], []⟩, []⟩).st =
        some [⟨1, "Ann", "Absent", none⟩] ∧
      get_meta "current_csv_date"
          (main_loop_tick [(1, "Ann"), (2, "Bob")] [(1, "Ann")] 5 0 ⟨5, 8⟩ []
            ⟨⟨[("current_csv_date", 5)], [], []⟩, []⟩).st.db = some 5 := by
  have h1 : absentRowsOf [(1, "Ann")] = [⟨1, "Ann", "Absent", none⟩] := by
    simp [absentRowsOf, userName]
  simp only [main_loop_tick, ensure_csv_for_today, make_daily_csv, poll_once,
    List.mergeSort_nil, h1]
  decide

/-- Witness for C9 (amended): the trigger of the counterexample's tick,
discharged concretely. -/
theorem day_check_materialize_witness :
    getFile (active_day_of 0 ⟨5, 8⟩)
        (main_loop_tick [(1, "Ann"), (2, "Bob")] [(1, "Ann")] 5 0 ⟨5, 8⟩ []
          ⟨⟨[("current_csv_date", 5)], [], []⟩, []⟩).st =
      some (absentRowsOf [(1, "Ann")]) ∧
      get_meta "current_csv_date"
          (main_loop_tick [(1, "Ann"), (2, "Bob")] [(1, "Ann")] 5 0 ⟨5, 8⟩ []
            ⟨⟨[("current_csv_date", 5)], [], []⟩, []⟩).st.db =
        some (active_day_of 0 ⟨5, 8⟩) ∧
      (main_loop_tick [(1, "Ann"), (2, "Bob")] [(1, "Ann")] 5 0 ⟨5, 8⟩ []
          ⟨⟨[("current_csv_date", 5)], [], []⟩, []⟩).users =
        (if active_day_of 0 ⟨5, 8⟩ ≠ 5 then [(1, "Ann"), (2, "Bob")]
          else [(1, "Ann")]) ∧
      (main_loop_tick [(1, "Ann"), (2, "Bob")] [(1, "Ann")] 5 0 ⟨5, 8⟩ []
          ⟨⟨[("current_csv_date", 5)], [], []⟩, []⟩).reloaded =
        decide (active_day_of 0 ⟨5, 8⟩ ≠ 5) ∧
      List.Pairwise (fun a b : Nat => a ≤ b)
        ((absentRowsOf [(1, "Ann")]).map Row.id) ∧
      List.Perm ((absentRowsOf [(1, "Ann")]).map Row.id)
        ([(1, "Ann")].map Prod.fst) ∧
      ((absentRowsOf [(1, "Ann")]).map Row.id).Nodup ∧
      ∀ row ∈ absentRowsOf [(1, "Ann")], row.status = "Absent" ∧
        row.first_checkin_local = none :=
  day_check_materialize [(1, "Ann"), (2, "Bob")] [(1, "Ann")] 5 0 ⟨5, 8⟩
    ⟨⟨[("current_csv_date", 5)], [], []⟩, []⟩ (by decide) (Or.inr (by decide))

end ZKT
